import Mathlib

/-!
# Verification of the batch-swap-router validation and accounting core

Shallow embedding of the validation, fee, slippage and batch-accounting
logic of `programs/batch-swap-router/src` (files `security.rs`,
`utils.rs`, `swap_execution.rs`, `constants.rs`,
`instructions/batch_swap.rs`, `instructions/execute_swap.rs`).

Machine integers (`u64`, `u128`) are modelled as `Nat` together with the
explicit bounds `U64_MOD = 2^64` and `U128_MOD = 2^128`; every checked
operation of the source tests the same bound the hardware type imposes.
Solana `Pubkey` values (32 raw bytes) are modelled as `Fin (2^256)`, with
`Pubkey.default` the all-zero key. Fallible Rust functions returning
`Result<T, ErrorCode>` become `Except ErrorCode T`; functions returning
`Option<T>` become `Option T`.
-/

namespace BatchSwapRouter

/-- Number of values of the `u64` type: results must stay below this. -/
def U64_MOD : Nat := 2 ^ 64

/-- Number of values of the `u128` type. -/
def U128_MOD : Nat := 2 ^ 128

/-- Solana public key: an opaque 32-byte identifier, so exactly `2^256`
values. Only equality and the distinguished all-zero default are used by
the program. -/
abbrev Pubkey : Type := Fin (2 ^ 256)

/-- Embeds `Pubkey::default()`: the all-zero key (`src/security.rs:228`). -/
def Pubkey.default : Pubkey := ⟨0, by positivity⟩

/-- Modelled from the spec: the error enum `ErrorCode` is declared in
`src/errors.rs`, which is not part of the provided sources; its variants
are reconstructed from their use sites in `security.rs`,
`instructions/batch_swap.rs`, `instructions/execute_swap.rs` and the error
taxonomy of the spec (§7). Only the variants those files raise are
modelled. -/
inductive ErrorCode where
  | InvalidAccount
  | InvalidSwapPair
  | InvalidAmount
  | InvalidMinOutput
  | EmptySwaps
  | TooManySwaps
  | MathOverflow
  | SlippageExceeded
  | InsufficientOutput
deriving DecidableEq

deriving instance DecidableEq for Except

/-- Source `constants.rs`: `MAX_BATCH_SIZE: usize = 10`. -/
def MAX_BATCH_SIZE : Nat := 10

/-- Source `constants.rs`: `MIN_SWAP_AMOUNT: u64 = 1`. -/
def MIN_SWAP_AMOUNT : Nat := 1

/-- Source `constants.rs`: `PROTOCOL_FEE_BPS: u64 = 30`. -/
def PROTOCOL_FEE_BPS : Nat := 30

/-- Source `constants.rs`: `MAX_SLIPPAGE_BPS: u64 = 500`. -/
def MAX_SLIPPAGE_BPS : Nat := 500

/-- Source `state.rs`: `SwapParams` — mints plus `u64` amount and minimum
output. The `u64` fields are `Nat`s; theorems carry the `< U64_MOD`
bounds the Rust type enforces where they matter. -/
structure SwapParams where
  input_mint : Pubkey
  output_mint : Pubkey
  amount : Nat
  min_output_amount : Nat
deriving DecidableEq

/-- Source `security.rs`, `impl SafeMath for u64`: `safe_add` via `checked_add`,
`MathOverflow` when the sum leaves the `u64` range. -/
def u64_safe_add (a b : Nat) : Except ErrorCode Nat :=
  if a + b < U64_MOD then .ok (a + b) else .error .MathOverflow

/-- Source `security.rs`, `impl SafeMath for u64`: `safe_sub` via `checked_sub`,
`MathOverflow` on underflow (`b > a`). -/
def u64_safe_sub (a b : Nat) : Except ErrorCode Nat :=
  if b ≤ a then .ok (a - b) else .error .MathOverflow

/-- Source `security.rs`, `impl SafeMath for u128`: `safe_mul` via `checked_mul`,
`MathOverflow` when the product leaves the `u128` range. -/
def u128_safe_mul (a b : Nat) : Except ErrorCode Nat :=
  if a * b < U128_MOD then .ok (a * b) else .error .MathOverflow

/-- Source `security.rs`, `impl SafeMath for u128`: `safe_div`, `MathOverflow`
when the divisor is zero (`checked_div` cannot otherwise fail on
unsigned operands). -/
def u128_safe_div (a b : Nat) : Except ErrorCode Nat :=
  if b = 0 then .error .MathOverflow else .ok (a / b)

/-- Source `security.rs` line 362: `u64::try_from(fee).map_err(|_| MathOverflow)` —
narrowing a `u128` value back to `u64`. -/
def u64_try_from (a : Nat) : Except ErrorCode Nat :=
  if a < U64_MOD then .ok a else .error .MathOverflow

/-- Source `security.rs`, `calculate_fee_safe(amount, fee_bps)`:
`(amount as u128).safe_mul(fee_bps)?.safe_div(10000)?` narrowed back to
`u64`. -/
def calculate_fee_safe (amount fee_bps : Nat) : Except ErrorCode Nat := do
  let p ← u128_safe_mul amount fee_bps
  let fee ← u128_safe_div p 10000
  u64_try_from fee

/-- Source `swap_execution.rs`, `calculate_protocol_fee(amount)`:
`calculate_fee_safe(amount, PROTOCOL_FEE_BPS)`. -/
def calculate_protocol_fee (amount : Nat) : Except ErrorCode Nat :=
  calculate_fee_safe amount PROTOCOL_FEE_BPS

/-- Source `security.rs`, `amount_after_fee(amount, fee)`: `amount.safe_sub(fee)`. -/
def amount_after_fee (amount fee : Nat) : Except ErrorCode Nat :=
  u64_safe_sub amount fee

/-- Source `security.rs`, `validate_amount_after_fee(amount, fee, min_amount)`:
subtract the fee, then require the residue to reach the minimum. -/
def validate_amount_after_fee (amount fee min_amount : Nat) :
    Except ErrorCode Unit := do
  let amount_after ← amount_after_fee amount fee
  if amount_after ≥ min_amount then .ok () else .error .InsufficientOutput

/-- Source `security.rs`, `assert_not_default(key)`:
`require!(*key != Pubkey::default(), InvalidAccount)`. -/
def assert_not_default (key : Pubkey) : Except ErrorCode Unit :=
  if key ≠ Pubkey.default then .ok () else .error .InvalidAccount

/-- Source `security.rs`, `assert_different_mints(mint1, mint2)`:
`require!(mint1 != mint2, InvalidSwapPair)`. -/
def assert_different_mints (mint1 mint2 : Pubkey) : Except ErrorCode Unit :=
  if mint1 ≠ mint2 then .ok () else .error .InvalidSwapPair

/-- Source `security.rs`, `validate_min_output(actual_output, min_output)`:
`require!(actual_output >= min_output, SlippageExceeded)`. -/
def validate_min_output (actual_output min_output : Nat) :
    Except ErrorCode Unit :=
  if actual_output ≥ min_output then .ok () else .error .SlippageExceeded

/-- Source `security.rs`, `assert_valid_slippage(slippage_bps, max_slippage_bps)`:
`require!(slippage_bps <= max_slippage_bps, SlippageExceeded)`. -/
def assert_valid_slippage (slippage_bps max_slippage_bps : Nat) :
    Except ErrorCode Unit :=
  if slippage_bps ≤ max_slippage_bps then .ok () else .error .SlippageExceeded

/-- Source `utils.rs`, `calculate_slippage(expected, actual)`: `None` on zero
expected; `Some(0)` when `actual >= expected`; otherwise
`((expected - actual) * 10000) / expected` computed through `checked_sub`
on `u64` plus `checked_mul`/`checked_div` on `u128`, then narrowed with
`u64::try_from(..).ok()`. -/
def calculate_slippage (expected actual : Nat) : Option Nat :=
  if expected = 0 then
    none
  else if actual ≥ expected then
    some 0
  else do
    let difference ← if actual ≤ expected then some (expected - actual) else none
    let product ← if difference * 10000 < U128_MOD then some (difference * 10000) else none
    let slippage_bps ← some (product / expected)
    if slippage_bps < U64_MOD then some slippage_bps else none

/-- Source `swap_execution.rs`, `validate_slippage(expected_output, actual_output,
min_output_amount, max_slippage_bps)`: the absolute floor first, then the
relative tolerance, the latter only when `expected_output > 0` and
`actual_output < expected_output` and only when `calculate_slippage`
produced a value. -/
def validate_slippage (expected_output actual_output min_output_amount
    max_slippage_bps : Nat) : Except ErrorCode Unit := do
  validate_min_output actual_output min_output_amount
  if 0 < expected_output ∧ actual_output < expected_output then
    match calculate_slippage expected_output actual_output with
    | some slippage_bps => assert_valid_slippage slippage_bps max_slippage_bps
    | none => .ok ()
  else
    .ok ()

/-- Source `instructions/batch_swap.rs` lines 131–151, body of the per-swap
validation loop: non-default input mint, non-default output mint, amount
floor (`InvalidAmount`), distinct mints, positive minimum output — in
that order, first failure wins (`?` / `require!` early return). -/
def validate_swap (swap : SwapParams) : Except ErrorCode Unit := do
  assert_not_default swap.input_mint
  assert_not_default swap.output_mint
  if swap.amount ≥ MIN_SWAP_AMOUNT then .ok () else .error .InvalidAmount
  assert_different_mints swap.input_mint swap.output_mint
  if swap.min_output_amount > 0 then .ok () else .error .InvalidMinOutput

/-- Source `instructions/batch_swap.rs` STEP 3: run the per-swap validation over
the list in order, aborting at the first failure. -/
def validate_all : List SwapParams → Except ErrorCode Unit
  | [] => .ok ()
  | swap :: rest => do
    validate_swap swap
    validate_all rest

/-- Source `instructions/batch_swap.rs` STEP 4 (lines 190–218): fold over the
swaps computing each protocol fee and accumulating
`total_input_amount`/`total_protocol_fees` through `safe_add`. -/
def accumulate_totals : List SwapParams → Nat → Nat → Except ErrorCode (Nat × Nat)
  | [], total_input_amount, total_protocol_fees =>
    .ok (total_input_amount, total_protocol_fees)
  | swap :: rest, total_input_amount, total_protocol_fees => do
    let fee ← calculate_protocol_fee swap.amount
    let total_input ← u64_safe_add total_input_amount swap.amount
    let total_fees ← u64_safe_add total_protocol_fees fee
    accumulate_totals rest total_input total_fees

/-- Source `instructions/batch_swap.rs`, `handler`: the result-relevant part —
batch-size gates (`EmptySwaps`, `TooManySwaps`), per-swap validation,
then the accumulation producing `(total_input_amount,
total_protocol_fees)`. Context extraction, logging and the event emission
do not affect which error (or totals) the handler produces and are not
modelled. -/
def batch_swap_handler (swaps : List SwapParams) :
    Except ErrorCode (Nat × Nat) := do
  if ¬ swaps.isEmpty then .ok () else .error .EmptySwaps
  if swaps.length ≤ MAX_BATCH_SIZE then .ok () else .error .TooManySwaps
  validate_all swaps
  accumulate_totals swaps 0 0

/-- Total of the `amount` fields of a batch, as accumulated by the
handler's fold. -/
def total_amounts (swaps : List SwapParams) : Nat :=
  (swaps.map (fun s => s.amount)).sum

/-- Total of the per-swap protocol fees of a batch, as accumulated by the
handler's fold. -/
def total_fees (swaps : List SwapParams) : Nat :=
  (swaps.map (fun s => s.amount * PROTOCOL_FEE_BPS / 10000)).sum

/-- Concrete non-zero key (byte value 1) used by concrete instances. -/
def pkA : Pubkey := ⟨1, by norm_num⟩

/-- Concrete non-zero key (byte value 2), distinct from `pkA`. -/
def pkB : Pubkey := ⟨2, by norm_num⟩

/-- Reduction of `Except` bind on a success value. -/
@[simp] theorem except_bind_ok {α β : Type} (a : α) (f : α → Except ErrorCode β) :
    (Except.ok a : Except ErrorCode α) >>= f = f a := rfl

/-- Reduction of `Except` bind on an error value. -/
@[simp] theorem except_bind_error {α β : Type} (e : ErrorCode) (f : α → Except ErrorCode β) :
    (Except.error e : Except ErrorCode α) >>= f = .error e := rfl

/-- The protocol fee never exceeds the amount it is computed from. -/
theorem fee_le_amount (amount : Nat) : amount * PROTOCOL_FEE_BPS / 10000 ≤ amount := by
  have h : amount * PROTOCOL_FEE_BPS ≤ amount * 10000 :=
    Nat.mul_le_mul_left amount (by norm_num [PROTOCOL_FEE_BPS])
  calc amount * PROTOCOL_FEE_BPS / 10000 ≤ amount * 10000 / 10000 := Nat.div_le_div_right h
    _ = amount := Nat.mul_div_cancel amount (by norm_num)

/-- Closed form of the protocol-fee computation on any `u64` amount: every
checked step succeeds. -/
theorem protocol_fee_ok (amount : Nat) (h : amount < U64_MOD) :
    calculate_protocol_fee amount = .ok (amount * PROTOCOL_FEE_BPS / 10000) := by
  have h1 : amount * PROTOCOL_FEE_BPS < U128_MOD := by
    simp only [PROTOCOL_FEE_BPS, U128_MOD]
    simp only [U64_MOD] at h
    omega
  have h2 : amount * PROTOCOL_FEE_BPS / 10000 < U64_MOD :=
    Nat.lt_of_le_of_lt (fee_le_amount amount) h
  simp [calculate_protocol_fee, calculate_fee_safe, u128_safe_mul, u128_safe_div,
        u64_try_from, h1, h2]

/-- Closed form of `calculate_slippage` on a genuine shortfall: every
checked step succeeds and the result is the floor-division formula. -/
theorem calculate_slippage_some (expected actual : Nat) (hu : expected < U64_MOD)
    (h0 : 0 < expected) (hlt : actual < expected) :
    calculate_slippage expected actual =
      some ((expected - actual) * 10000 / expected) := by
  have hne : expected ≠ 0 := Nat.pos_iff_ne_zero.mp h0
  have hnge : ¬ actual ≥ expected := Nat.not_le.mpr hlt
  have hle : actual ≤ expected := Nat.le_of_lt hlt
  have h128 : (expected - actual) * 10000 < U128_MOD := by
    have hsub : expected - actual < U64_MOD :=
      Nat.lt_of_le_of_lt (Nat.sub_le _ _) hu
    simp only [U128_MOD]
    simp only [U64_MOD] at hsub
    omega
  have hres : (expected - actual) * 10000 / expected < U64_MOD := by
    have h1 : (expected - actual) * 10000 ≤ expected * 10000 :=
      Nat.mul_le_mul_right 10000 (Nat.sub_le _ _)
    have h2 : (expected - actual) * 10000 / expected ≤ expected * 10000 / expected :=
      Nat.div_le_div_right h1
    have h3 : expected * 10000 / expected = 10000 := by
      rw [Nat.mul_comm]
      exact Nat.mul_div_cancel 10000 h0
    have h4 : (10000 : Nat) < U64_MOD := by norm_num [U64_MOD]
    omega
  simp [calculate_slippage, hne, hnge, hle, h128, hres]

/-- The slippage computation is undefined exactly on a zero expected
amount, for any `u64` expected value. -/
theorem calculate_slippage_none_iff (expected actual : Nat) (hu : expected < U64_MOD) :
    (calculate_slippage expected actual = none ↔ expected = 0) := by
  constructor
  · intro hnone
    by_contra hne
    have h0 : 0 < expected := Nat.pos_of_ne_zero hne
    by_cases hge : actual ≥ expected
    · simp [calculate_slippage, hne, hge] at hnone
    · rw [calculate_slippage_some expected actual hu h0 (Nat.not_le.mp hge)] at hnone
      exact Option.noConfusion hnone
  · intro h
    simp [calculate_slippage, h]

/-- Case-by-case characterization of the per-swap validation in
`batch_swap.rs`: the five checks run in source order with the amount
floor third and the distinct-mints check fourth. -/
theorem validate_swap_cases (s : SwapParams) :
    validate_swap s =
      (if s.input_mint = Pubkey.default then .error .InvalidAccount
       else if s.output_mint = Pubkey.default then .error .InvalidAccount
       else if s.amount < MIN_SWAP_AMOUNT then .error .InvalidAmount
       else if s.input_mint = s.output_mint then .error .InvalidSwapPair
       else if s.min_output_amount = 0 then .error .InvalidMinOutput
       else .ok ()) := by
  by_cases h1 : s.input_mint = Pubkey.default <;>
  by_cases h2 : s.output_mint = Pubkey.default <;>
  by_cases h3 : s.amount < MIN_SWAP_AMOUNT <;>
  by_cases h4 : s.input_mint = s.output_mint <;>
  by_cases h5 : s.min_output_amount = 0 <;>
  simp_all [validate_swap, assert_not_default, assert_different_mints,
    Nat.not_lt, Nat.pos_of_ne_zero, Nat.not_le] <;>
  rw [if_neg (Nat.not_lt.mpr h3)]
/-- Characterization of the accumulation fold: starting from in-range
running totals over in-range amounts, it returns the exact sums when both
stay below `2^64` and aborts with `MathOverflow` otherwise. -/
theorem accumulate_totals_spec (swaps : List SwapParams) :
    ∀ (ti tf : Nat), (∀ s ∈ swaps, s.amount < U64_MOD) →
    ti < U64_MOD → tf < U64_MOD →
    accumulate_totals swaps ti tf =
      if ti + total_amounts swaps < U64_MOD ∧ tf + total_fees swaps < U64_MOD then
        .ok (ti + total_amounts swaps, tf + total_fees swaps)
      else .error .MathOverflow := by
  induction swaps with
  | nil =>
    intro ti tf _ hti htf
    simp [accumulate_totals, total_amounts, total_fees, hti, htf]
  | cons swap rest ih =>
    intro ti tf hb hti htf
    have hamt : swap.amount < U64_MOD := hb swap (List.mem_cons_self _ _)
    have hrest : ∀ s ∈ rest, s.amount < U64_MOD :=
      fun s hs => hb s (List.mem_cons_of_mem _ hs)
    have hfee_le : swap.amount * PROTOCOL_FEE_BPS / 10000 ≤ swap.amount :=
      fee_le_amount _
    have ta : total_amounts (swap :: rest) = swap.amount + total_amounts rest := by
      simp [total_amounts]
    have tfe : total_fees (swap :: rest) =
        swap.amount * PROTOCOL_FEE_BPS / 10000 + total_fees rest := by
      simp [total_fees]
    simp only [accumulate_totals, protocol_fee_ok swap.amount hamt, except_bind_ok]
    unfold u64_safe_add
    by_cases h1 : ti + swap.amount < U64_MOD
    · rw [if_pos h1]
      simp only [except_bind_ok]
      by_cases h2 : tf + swap.amount * PROTOCOL_FEE_BPS / 10000 < U64_MOD
      · rw [if_pos h2]
        simp only [except_bind_ok]
        rw [ih _ _ hrest h1 h2]
        simp only [ta, tfe, Nat.add_assoc]
      · rw [if_neg h2]
        simp only [except_bind_error]
        rw [if_neg]
        rw [tfe]
        intro hc
        omega
    · rw [if_neg h1]
      simp only [except_bind_error]
      rw [if_neg]
      rw [ta]
      intro hc
      omega

/-- Checked `u64` addition fails only with `MathOverflow`. -/
theorem u64_safe_add_error {a b : Nat} {e : ErrorCode}
    (h : u64_safe_add a b = .error e) : e = .MathOverflow := by
  unfold u64_safe_add at h
  split_ifs at h
  simp_all

/-- Checked `u128` multiplication fails only with `MathOverflow`. -/
theorem u128_safe_mul_error {a b : Nat} {e : ErrorCode}
    (h : u128_safe_mul a b = .error e) : e = .MathOverflow := by
  unfold u128_safe_mul at h
  split_ifs at h
  simp_all

/-- Checked `u128` division fails only with `MathOverflow`. -/
theorem u128_safe_div_error {a b : Nat} {e : ErrorCode}
    (h : u128_safe_div a b = .error e) : e = .MathOverflow := by
  unfold u128_safe_div at h
  split_ifs at h
  simp_all

/-- Narrowing back to `u64` fails only with `MathOverflow`. -/
theorem u64_try_from_error {a : Nat} {e : ErrorCode}
    (h : u64_try_from a = .error e) : e = .MathOverflow := by
  unfold u64_try_from at h
  split_ifs at h
  simp_all

/-- The fee computation fails only with `MathOverflow`. -/
theorem calculate_fee_safe_error {amount fee_bps : Nat} {e : ErrorCode}
    (h : calculate_fee_safe amount fee_bps = .error e) : e = .MathOverflow := by
  unfold calculate_fee_safe at h
  cases hm : u128_safe_mul amount fee_bps with
  | error e2 =>
    rw [hm, except_bind_error] at h
    injection h with h2
    exact h2 ▸ u128_safe_mul_error hm
  | ok p =>
    rw [hm, except_bind_ok] at h
    cases hd : u128_safe_div p 10000 with
    | error e2 =>
      rw [hd, except_bind_error] at h
      injection h with h2
      exact h2 ▸ u128_safe_div_error hd
    | ok q =>
      rw [hd, except_bind_ok] at h
      exact u64_try_from_error h

/-- Per-swap validation raises only the four parameter-check errors. -/
theorem validate_swap_error_mem (s : SwapParams) (e : ErrorCode)
    (h : validate_swap s = .error e) :
    e = .InvalidAccount ∨ e = .InvalidAmount ∨ e = .InvalidSwapPair ∨
      e = .InvalidMinOutput := by
  rw [validate_swap_cases] at h
  split_ifs at h <;> simp_all

/-- Unfolding the per-swap validation loop by one element. -/
theorem validate_all_cons (s : SwapParams) (rest : List SwapParams) :
    validate_all (s :: rest) = (validate_swap s) >>= fun _ => validate_all rest := rfl

/-- The whole validation loop raises only the four parameter-check errors. -/
theorem validate_all_error_mem (swaps : List SwapParams) (e : ErrorCode)
    (h : validate_all swaps = .error e) :
    e = .InvalidAccount ∨ e = .InvalidAmount ∨ e = .InvalidSwapPair ∨
      e = .InvalidMinOutput := by
  induction swaps with
  | nil => simp [validate_all] at h
  | cons s rest ih =>
    rw [validate_all_cons] at h
    cases hv : validate_swap s with
    | ok u =>
      rw [hv, except_bind_ok] at h
      exact ih h
    | error e2 =>
      rw [hv, except_bind_error] at h
      injection h with h2
      exact h2 ▸ validate_swap_error_mem s e2 hv

/-- The accumulation fold fails only with `MathOverflow`. -/
theorem accumulate_totals_error (swaps : List SwapParams) :
    ∀ ti tf e, accumulate_totals swaps ti tf = .error e → e = .MathOverflow := by
  induction swaps with
  | nil =>
    intro ti tf e h
    simp [accumulate_totals] at h
  | cons swap rest ih =>
    intro ti tf e h
    simp only [accumulate_totals] at h
    cases hf : calculate_protocol_fee swap.amount with
    | error e2 =>
      rw [hf, except_bind_error] at h
      injection h with h2
      unfold calculate_protocol_fee at hf
      exact h2 ▸ calculate_fee_safe_error hf
    | ok fee =>
      rw [hf, except_bind_ok] at h
      cases ha : u64_safe_add ti swap.amount with
      | error e2 =>
        rw [ha, except_bind_error] at h
        injection h with h2
        exact h2 ▸ u64_safe_add_error ha
      | ok ti2 =>
        rw [ha, except_bind_ok] at h
        cases hb : u64_safe_add tf fee with
        | error e2 =>
          rw [hb, except_bind_error] at h
          injection h with h2
          exact h2 ▸ u64_safe_add_error hb
        | ok tf2 =>
          rw [hb, except_bind_ok] at h
          exact ih ti2 tf2 e h

/-- Shape of the batch handler: the two batch-size gates, then the
validation loop, then the accumulation. -/
theorem batch_swap_handler_eq (swaps : List SwapParams) :
    batch_swap_handler swaps =
      if swaps.isEmpty then .error .EmptySwaps
      else if swaps.length ≤ MAX_BATCH_SIZE then
        (validate_all swaps) >>= fun _ => accumulate_totals swaps 0 0
      else .error .TooManySwaps := by
  unfold batch_swap_handler
  by_cases he : swaps.isEmpty <;> by_cases hl : swaps.length ≤ MAX_BATCH_SIZE <;>
    simp [he, hl]

/-- C1 (counterexample): a request whose source and destination token ids
are equal (and non-zero) and whose amount is below `MIN_SWAP_AMOUNT`
fails with the amount error kind, not the identical-tokens error kind —
the amount floor is checked before the distinct-mints rule. -/
theorem C1_counterexample :
    (pkA ≠ Pubkey.default ∧ (0 : Nat) < MIN_SWAP_AMOUNT) ∧
    validate_swap ⟨pkA, pkA, 0, 1⟩ = .error .InvalidAmount ∧
    validate_swap ⟨pkA, pkA, 0, 1⟩ ≠ .error .InvalidSwapPair := by
  decide

/-- C1 (amended): per-request validation checks five rules in this source
order, first failure wins — (1) source id non-zero, (2) destination id
non-zero, (3) amount ≥ MIN_AMOUNT, (4) source ≠ destination, (5)
min_output_amount > 0; in particular a request with equal non-zero token
ids and amount below the floor returns the amount-too-small error kind. -/
theorem C1_validate_order (s : SwapParams) :
    validate_swap s =
      (if s.input_mint = Pubkey.default then .error .InvalidAccount
       else if s.output_mint = Pubkey.default then .error .InvalidAccount
       else if s.amount < MIN_SWAP_AMOUNT then .error .InvalidAmount
       else if s.input_mint = s.output_mint then .error .InvalidSwapPair
       else if s.min_output_amount = 0 then .error .InvalidMinOutput
       else .ok ()) ∧
    (s.input_mint ≠ Pubkey.default → s.input_mint = s.output_mint →
      s.amount < MIN_SWAP_AMOUNT → validate_swap s = .error .InvalidAmount) := by
  refine ⟨validate_swap_cases s, fun h1 h2 h3 => ?_⟩
  rw [validate_swap_cases, if_neg h1, if_neg (h2 ▸ h1), if_pos h3]

/-- Closed instance of the amended C1 statement. -/
theorem C1_witness : validate_swap ⟨pkA, pkA, 0, 5⟩ = .error .InvalidAmount :=
  (C1_validate_order ⟨pkA, pkA, 0, 5⟩).2 (by decide) rfl (by decide)

/-- C2: settlement verification succeeds iff both gates pass — the
absolute floor `actual ≥ min_output`, and, whenever `expected > 0` and
`actual < expected`, the computed slippage within `max_slippage_bps`; any
failure is `SlippageExceeded`. The spec scenarios at 94 and 95 out of 100
with floor 90 and tolerance 500 bps behave as stated. -/
theorem C2_settlement_gates (e a mo mx : Nat) (hu : e < U64_MOD) :
    (validate_slippage e a mo mx = .ok () ↔
      (mo ≤ a ∧ (0 < e → a < e → (e - a) * 10000 / e ≤ mx))) ∧
    (validate_slippage e a mo mx = .ok () ∨
      validate_slippage e a mo mx = .error .SlippageExceeded) ∧
    validate_slippage 100 94 90 500 = .error .SlippageExceeded ∧
    validate_slippage 100 95 90 500 = .ok () := by
  have hmain : validate_slippage e a mo mx =
      if mo ≤ a then
        (if 0 < e ∧ a < e then
          (if (e - a) * 10000 / e ≤ mx then .ok () else .error .SlippageExceeded)
        else .ok ())
      else .error .SlippageExceeded := by
    unfold validate_slippage validate_min_output
    by_cases hmo : a ≥ mo
    · rw [if_pos hmo, if_pos hmo, except_bind_ok]
      by_cases hc : 0 < e ∧ a < e
      · rw [if_pos hc, if_pos hc, calculate_slippage_some e a hu hc.1 hc.2]
        rfl
      · rw [if_neg hc, if_neg hc]
    · rw [if_neg hmo, if_neg hmo, except_bind_error]
  rw [hmain]
  refine ⟨?_, ?_, by decide, by decide⟩
  · constructor
    · intro hok
      split_ifs at hok with h1 h2 h3
      all_goals first
        | exact ⟨h1, fun _ _ => h3⟩
        | exact ⟨h1, fun he ha => (h2 ⟨he, ha⟩).elim⟩
    · rintro ⟨hmo, himp⟩
      rw [if_pos hmo]
      by_cases hc : 0 < e ∧ a < e
      · rw [if_pos hc, if_pos (himp hc.1 hc.2)]
      · rw [if_neg hc]
  · split_ifs <;> simp

/-- Closed instance of C2 at the spec scenarios. -/
theorem C2_witness :
    validate_slippage 100 94 90 500 = .error .SlippageExceeded ∧
    validate_slippage 100 95 90 500 = .ok () :=
  ⟨(C2_settlement_gates 100 94 90 500 (by norm_num [U64_MOD])).2.2.1,
   (C2_settlement_gates 100 95 90 500 (by norm_num [U64_MOD])).2.2.2⟩

/-- C3: a successful batch returns `total_input_amount` equal to the sum
of member amounts and `total_protocol_fees` equal to the sum of per-swap
protocol fees; when a running total would leave the `u64` range the
batch aborts with `MathOverflow` instead of truncating. -/
theorem C3_batch_totals (swaps : List SwapParams)
    (hb : ∀ s ∈ swaps, s.amount < U64_MOD) :
    (∀ ti tf, batch_swap_handler swaps = .ok (ti, tf) →
      ti = total_amounts swaps ∧ tf = total_fees swaps) ∧
    (¬ swaps.isEmpty → swaps.length ≤ MAX_BATCH_SIZE →
      validate_all swaps = .ok () →
      (U64_MOD ≤ total_amounts swaps ∨ U64_MOD ≤ total_fees swaps) →
      batch_swap_handler swaps = .error .MathOverflow) := by
  have hz : (0 : Nat) < U64_MOD := by norm_num [U64_MOD]
  have hacc := accumulate_totals_spec swaps 0 0 hb hz hz
  rw [batch_swap_handler_eq]
  constructor
  · intro ti tf h
    split_ifs at h with h1 h2
    cases hv : validate_all swaps with
    | error e2 => rw [hv, except_bind_error] at h; exact absurd h (by simp)
    | ok u =>
      cases u
      rw [hv, except_bind_ok, hacc] at h
      split_ifs at h with h3
      injection h with h4
      injection h4 with h5 h6
      omega
  · intro h1 h2 hv hof
    rw [if_neg (by simp [h1]), if_pos h2, hv, except_bind_ok, hacc, if_neg (by omega)]

/-- Closed instance of C3 on a singleton batch. -/
theorem C3_witness :
    batch_swap_handler [(⟨pkA, pkB, 5, 1⟩ : SwapParams)] = .ok (5, 0) ∧
    (5 = total_amounts [(⟨pkA, pkB, 5, 1⟩ : SwapParams)] ∧
     0 = total_fees [(⟨pkA, pkB, 5, 1⟩ : SwapParams)]) := by
  have hh : batch_swap_handler [(⟨pkA, pkB, 5, 1⟩ : SwapParams)] = .ok (5, 0) := by
    decide
  have h := C3_batch_totals [(⟨pkA, pkB, 5, 1⟩ : SwapParams)]
    (by intro s hs; simp at hs; subst hs; norm_num [U64_MOD])
  exact ⟨hh, h.1 5 0 hh⟩

/-- C4: for `u64` inputs, `calculate_slippage` is `none` exactly when the
expected amount is zero, `some 0` on better-or-equal outcomes, and
otherwise the exact floor of `(expected - actual) * 10000 / expected`
(the 128-bit intermediate product and the narrowing never fail). -/
theorem C4_slippage_closed_form (expected actual : Nat)
    (he : expected < U64_MOD) (_ha : actual < U64_MOD) :
    (calculate_slippage expected actual = none ↔ expected = 0) ∧
    (0 < expected → expected ≤ actual →
      calculate_slippage expected actual = some 0) ∧
    (0 < expected → actual < expected →
      calculate_slippage expected actual =
        some ((expected - actual) * 10000 / expected)) := by
  refine ⟨calculate_slippage_none_iff expected actual he, ?_, ?_⟩
  · intro h0 hge
    simp [calculate_slippage, Nat.pos_iff_ne_zero.mp h0, hge]
  · intro h0 hlt
    exact calculate_slippage_some expected actual he h0 hlt

/-- Closed instance of C4 covering all three branches. -/
theorem C4_witness :
    calculate_slippage 100 94 = some 600 ∧
    calculate_slippage 100 120 = some 0 ∧
    calculate_slippage 0 7 = none := by
  have h1 := C4_slippage_closed_form 100 94 (by norm_num [U64_MOD]) (by norm_num [U64_MOD])
  have h2 := C4_slippage_closed_form 100 120 (by norm_num [U64_MOD]) (by norm_num [U64_MOD])
  have h3 := C4_slippage_closed_form 0 7 (by norm_num [U64_MOD]) (by norm_num [U64_MOD])
  refine ⟨?_, h2.2.1 (by norm_num) (by norm_num), h3.1.mpr rfl⟩
  rw [h1.2.2 (by norm_num) (by norm_num)]

/-- C5: the batch gate fails with the empty-batch error exactly on the
empty list, fails with the batch-too-large error exactly when the length
exceeds `MAX_BATCH_SIZE = 10`, and a batch of exactly ten valid requests
succeeds. -/
theorem C5_batch_bounds (swaps : List SwapParams) :
    (batch_swap_handler swaps = .error .EmptySwaps ↔ swaps = []) ∧
    (batch_swap_handler swaps = .error .TooManySwaps ↔
      MAX_BATCH_SIZE < swaps.length) ∧
    batch_swap_handler
        (List.replicate MAX_BATCH_SIZE (⟨pkA, pkB, 1, 1⟩ : SwapParams)) =
      .ok (MAX_BATCH_SIZE, 0) := by
  have htail : ∀ en, ((validate_all swaps) >>= fun _ =>
      accumulate_totals swaps 0 0) = .error en →
      en ≠ .EmptySwaps ∧ en ≠ .TooManySwaps := by
    intro en h
    cases hv : validate_all swaps with
    | error e2 =>
      rw [hv, except_bind_error] at h
      injection h with h2
      subst h2
      rcases validate_all_error_mem swaps e2 hv with h3 | h3 | h3 | h3 <;>
        subst h3 <;> exact ⟨by decide, by decide⟩
    | ok u =>
      cases u
      rw [hv, except_bind_ok] at h
      have h3 := accumulate_totals_error swaps 0 0 en h
      subst h3
      exact ⟨by decide, by decide⟩
  rw [batch_swap_handler_eq]
  refine ⟨?_, ?_, by decide⟩
  · split_ifs with h1 h2
    · rw [List.isEmpty_iff] at h1
      exact iff_of_true rfl h1
    · constructor
      · intro h
        exact absurd rfl (htail _ h).1
      · intro h
        subst h
        simp at h1
    · constructor
      · intro h
        exact absurd h (by decide)
      · intro h
        subst h
        simp at h1
  · split_ifs with h1 h2
    · rw [List.isEmpty_iff] at h1
      constructor
      · intro h
        exact absurd h (by decide)
      · intro h
        subst h1
        simp [MAX_BATCH_SIZE] at h
    · constructor
      · intro h
        exact absurd rfl (htail _ h).2
      · intro h
        exact absurd h (Nat.not_lt.mpr h2)
    · exact iff_of_true rfl (Nat.not_le.mp h2)

/-- Closed instance of C5 at the boundary batch sizes. -/
theorem C5_witness :
    batch_swap_handler ([] : List SwapParams) = .error .EmptySwaps ∧
    batch_swap_handler (List.replicate 11 (⟨pkA, pkB, 1, 1⟩ : SwapParams)) =
      .error .TooManySwaps :=
  ⟨(C5_batch_bounds []).1.mpr rfl,
   (C5_batch_bounds _).2.1.mpr (by simp [MAX_BATCH_SIZE])⟩

/-- C6: below `u64::MAX / PROTOCOL_FEE_BPS` the protocol fee is computed,
never exceeds the amount, and the fee/residual split is lossless; the
spec scenario at one billion with 30 bps gives fee 3,000,000 and residual
997,000,000. -/
theorem C6_fee_split (amount : Nat)
    (h : amount ≤ (U64_MOD - 1) / PROTOCOL_FEE_BPS) :
    calculate_protocol_fee amount = .ok (amount * PROTOCOL_FEE_BPS / 10000) ∧
    amount * PROTOCOL_FEE_BPS / 10000 ≤ amount ∧
    amount_after_fee amount (amount * PROTOCOL_FEE_BPS / 10000) =
      .ok (amount - amount * PROTOCOL_FEE_BPS / 10000) ∧
    (amount - amount * PROTOCOL_FEE_BPS / 10000) +
      amount * PROTOCOL_FEE_BPS / 10000 = amount ∧
    (amount = 1000000000 →
      amount * PROTOCOL_FEE_BPS / 10000 = 3000000 ∧
      amount - amount * PROTOCOL_FEE_BPS / 10000 = 997000000) := by
  have hu : amount < U64_MOD := by
    have hq : (U64_MOD - 1) / PROTOCOL_FEE_BPS < U64_MOD := by
      norm_num [U64_MOD, PROTOCOL_FEE_BPS]
    omega
  have hle := fee_le_amount amount
  refine ⟨protocol_fee_ok amount hu, hle, ?_, by omega, ?_⟩
  · unfold amount_after_fee u64_safe_sub
    rw [if_pos hle]
  · intro ha
    subst ha
    norm_num [PROTOCOL_FEE_BPS]

/-- Closed instance of C6 at the spec scenario. -/
theorem C6_witness :
    calculate_protocol_fee 1000000000 = .ok 3000000 ∧
    amount_after_fee 1000000000 3000000 = .ok 997000000 := by
  have h := C6_fee_split 1000000000 (by norm_num [U64_MOD, PROTOCOL_FEE_BPS])
  have h5 := h.2.2.2.2 rfl
  constructor
  · rw [h.1, h5.1]
  · have h3 := h.2.2.1
    rw [h5.1] at h3
    rw [h3]

/-- C7: for positive `u64` expected amounts the slippage is zero on
better-or-equal outcomes, non-decreasing as the actual output drops
below the expected one, and `none` exactly on a zero expected amount. -/
theorem C7_slippage_monotone (e : Nat) (hu : e < U64_MOD) :
    (0 < e → ∀ a, e ≤ a → calculate_slippage e a = some 0) ∧
    (0 < e → ∀ a1 a2, a2 ≤ a1 → a1 < e →
      ∃ s1 s2, calculate_slippage e a1 = some s1 ∧
        calculate_slippage e a2 = some s2 ∧ s1 ≤ s2) ∧
    (∀ a, calculate_slippage e a = none ↔ e = 0) := by
  refine ⟨?_, ?_, fun a => calculate_slippage_none_iff e a hu⟩
  · intro h0 a hge
    simp [calculate_slippage, Nat.pos_iff_ne_zero.mp h0, hge]
  · intro h0 a1 a2 h21 h1e
    have h2e : a2 < e := Nat.lt_of_le_of_lt h21 h1e
    refine ⟨_, _, calculate_slippage_some e a1 hu h0 h1e,
      calculate_slippage_some e a2 hu h0 h2e, ?_⟩
    exact Nat.div_le_div_right
      (Nat.mul_le_mul_right 10000 (Nat.sub_le_sub_left h21 e))

/-- Closed instance of C7 at expected 100, actuals 100 ≥ 95 ≥ 94. -/
theorem C7_witness :
    calculate_slippage 100 100 = some 0 ∧
    (∃ s1 s2, calculate_slippage 100 95 = some s1 ∧
      calculate_slippage 100 94 = some s2 ∧ s1 ≤ s2) := by
  have h := C7_slippage_monotone 100 (by norm_num [U64_MOD])
  exact ⟨h.1 (by norm_num) 100 (le_refl 100),
    h.2.1 (by norm_num) 95 94 (by norm_num) (by norm_num)⟩

/-- C8: batch accumulation is additive — for two valid requests whose
summed totals stay within `u64`, validating the two-element batch yields
totals equal to the sums of the totals of the two singleton batches. -/
theorem C8_accumulation_additive (r1 r2 : SwapParams)
    (h1 : r1.amount < U64_MOD) (h2 : r2.amount < U64_MOD)
    (hv1 : validate_swap r1 = .ok ()) (hv2 : validate_swap r2 = .ok ())
    (hsum : r1.amount + r2.amount < U64_MOD)
    (hfsum : r1.amount * PROTOCOL_FEE_BPS / 10000 +
      r2.amount * PROTOCOL_FEE_BPS / 10000 < U64_MOD) :
    ∃ t12 t1 t2 : Nat × Nat,
      batch_swap_handler [r1, r2] = .ok t12 ∧
      batch_swap_handler [r1] = .ok t1 ∧
      batch_swap_handler [r2] = .ok t2 ∧
      t12.1 = t1.1 + t2.1 ∧ t12.2 = t1.2 + t2.2 := by
  have hz : (0 : Nat) < U64_MOD := by norm_num [U64_MOD]
  have hf1 : r1.amount * PROTOCOL_FEE_BPS / 10000 < U64_MOD :=
    Nat.lt_of_le_of_lt (fee_le_amount _) h1
  have hf2 : r2.amount * PROTOCOL_FEE_BPS / 10000 < U64_MOD :=
    Nat.lt_of_le_of_lt (fee_le_amount _) h2
  have hb12 : ∀ s ∈ [r1, r2], s.amount < U64_MOD := by
    intro s hs
    simp at hs
    rcases hs with rfl | rfl
    · exact h1
    · exact h2
  have hb1 : ∀ s ∈ [r1], s.amount < U64_MOD := by
    intro s hs
    simp at hs
    subst hs
    exact h1
  have hb2 : ∀ s ∈ [r2], s.amount < U64_MOD := by
    intro s hs
    simp at hs
    subst hs
    exact h2
  have hta12 : total_amounts [r1, r2] = r1.amount + r2.amount := by
    simp [total_amounts]
  have htf12 : total_fees [r1, r2] = r1.amount * PROTOCOL_FEE_BPS / 10000 +
      r2.amount * PROTOCOL_FEE_BPS / 10000 := by
    simp [total_fees]
  have ha12 := accumulate_totals_spec [r1, r2] 0 0 hb12 hz hz
  have ha1 := accumulate_totals_spec [r1] 0 0 hb1 hz hz
  have ha2 := accumulate_totals_spec [r2] 0 0 hb2 hz hz
  rw [hta12, htf12, if_pos (by omega)] at ha12
  rw [show total_amounts [r1] = r1.amount from by simp [total_amounts],
      show total_fees [r1] = r1.amount * PROTOCOL_FEE_BPS / 10000 from by
        simp [total_fees],
      if_pos (by omega)] at ha1
  rw [show total_amounts [r2] = r2.amount from by simp [total_amounts],
      show total_fees [r2] = r2.amount * PROTOCOL_FEE_BPS / 10000 from by
        simp [total_fees],
      if_pos (by omega)] at ha2
  have hv12 : validate_all [r1, r2] = .ok () := by
    rw [validate_all_cons, hv1, except_bind_ok, validate_all_cons, hv2,
      except_bind_ok]
    rfl
  have hval1 : validate_all [r1] = .ok () := by
    rw [validate_all_cons, hv1, except_bind_ok]
    rfl
  have hval2 : validate_all [r2] = .ok () := by
    rw [validate_all_cons, hv2, except_bind_ok]
    rfl
  simp only [Nat.zero_add] at ha12 ha1 ha2
  refine ⟨(r1.amount + r2.amount,
      r1.amount * PROTOCOL_FEE_BPS / 10000 + r2.amount * PROTOCOL_FEE_BPS / 10000),
    (r1.amount, r1.amount * PROTOCOL_FEE_BPS / 10000),
    (r2.amount, r2.amount * PROTOCOL_FEE_BPS / 10000), ?_, ?_, ?_, rfl, rfl⟩
  · rw [batch_swap_handler_eq, if_neg (by simp),
      if_pos (by simp [MAX_BATCH_SIZE]), hv12, except_bind_ok]
    exact ha12
  · rw [batch_swap_handler_eq, if_neg (by simp),
      if_pos (by simp [MAX_BATCH_SIZE]), hval1, except_bind_ok]
    exact ha1
  · rw [batch_swap_handler_eq, if_neg (by simp),
      if_pos (by simp [MAX_BATCH_SIZE]), hval2, except_bind_ok]
    exact ha2

/-- Closed instance of C8 on two small valid requests. -/
theorem C8_witness :
    ∃ t12 t1 t2 : Nat × Nat,
      batch_swap_handler
          [(⟨pkA, pkB, 100, 1⟩ : SwapParams), ⟨pkA, pkB, 50, 1⟩] = .ok t12 ∧
      batch_swap_handler [(⟨pkA, pkB, 100, 1⟩ : SwapParams)] = .ok t1 ∧
      batch_swap_handler [(⟨pkA, pkB, 50, 1⟩ : SwapParams)] = .ok t2 ∧
      t12.1 = t1.1 + t2.1 ∧ t12.2 = t1.2 + t2.2 :=
  C8_accumulation_additive ⟨pkA, pkB, 100, 1⟩ ⟨pkA, pkB, 50, 1⟩
    (by norm_num [U64_MOD]) (by norm_num [U64_MOD]) (by decide) (by decide)
    (by norm_num [U64_MOD]) (by norm_num [U64_MOD, PROTOCOL_FEE_BPS])

/-- C9: for every `u64` amount, with no further precondition, the
protocol-fee computation succeeds with the exact floor of
`amount * 30 / 10000`, which is at most the amount — the `MathOverflow`
branch is unreachable. -/
theorem C9_fee_never_overflows (amount : Nat) (h : amount < U64_MOD) :
    calculate_protocol_fee amount = .ok (amount * PROTOCOL_FEE_BPS / 10000) ∧
    amount * PROTOCOL_FEE_BPS / 10000 ≤ amount ∧
    (∀ e, calculate_protocol_fee amount ≠ .error e) := by
  refine ⟨protocol_fee_ok amount h, fee_le_amount amount, ?_⟩
  intro e hc
  rw [protocol_fee_ok amount h] at hc
  exact Except.noConfusion hc

/-- Closed instance of C9. -/
theorem C9_witness :
    calculate_protocol_fee 12345 = .ok (12345 * PROTOCOL_FEE_BPS / 10000) ∧
    12345 * PROTOCOL_FEE_BPS / 10000 ≤ 12345 :=
  ⟨(C9_fee_never_overflows 12345 (by norm_num [U64_MOD])).1,
   (C9_fee_never_overflows 12345 (by norm_num [U64_MOD])).2.1⟩

/-- C10: for every amount at least `MIN_SWAP_AMOUNT`, the post-fee
residue still reaches `MIN_SWAP_AMOUNT`, so
`validate_amount_after_fee(amount, protocol_fee(amount), MIN_SWAP_AMOUNT)`
always succeeds — the `InsufficientOutput` and underflow branches are
unreachable at this call site. -/
theorem C10_after_fee_floor (amount : Nat) (hmin : MIN_SWAP_AMOUNT ≤ amount)
    (hu : amount < U64_MOD) :
    calculate_protocol_fee amount = .ok (amount * PROTOCOL_FEE_BPS / 10000) ∧
    MIN_SWAP_AMOUNT ≤ amount - amount * PROTOCOL_FEE_BPS / 10000 ∧
    validate_amount_after_fee amount (amount * PROTOCOL_FEE_BPS / 10000)
      MIN_SWAP_AMOUNT = .ok () := by
  have h0 : 0 < amount := by
    simp only [MIN_SWAP_AMOUNT] at hmin
    omega
  have hfee_lt : amount * PROTOCOL_FEE_BPS / 10000 < amount := by
    rw [Nat.div_lt_iff_lt_mul (by norm_num : (0 : Nat) < 10000)]
    simp only [PROTOCOL_FEE_BPS]
    omega
  have hres : MIN_SWAP_AMOUNT ≤ amount - amount * PROTOCOL_FEE_BPS / 10000 := by
    simp only [MIN_SWAP_AMOUNT]
    omega
  refine ⟨protocol_fee_ok amount hu, hres, ?_⟩
  unfold validate_amount_after_fee amount_after_fee u64_safe_sub
  rw [if_pos (Nat.le_of_lt hfee_lt), except_bind_ok, if_pos hres]

/-- Closed instance of C10 at the minimum amount. -/
theorem C10_witness :
    validate_amount_after_fee 1 (1 * PROTOCOL_FEE_BPS / 10000)
      MIN_SWAP_AMOUNT = .ok () :=
  (C10_after_fee_floor 1 (by norm_num [MIN_SWAP_AMOUNT])
    (by norm_num [U64_MOD])).2.2

end BatchSwapRouter
